import Mathlib

/-!
Verification development for the mcp-google-calendar repository.

This file shallowly embeds the parts of the Go source that the checked
properties are about:

* `internal/domain/calendar.go` — the domain entities and `Event.Validate`;
* `internal/infrastructure/gcal/google_calendar_adapter.go` — the
  `googleCalendarService.CreateEvent` flow (nil check, calendar-ID check,
  `validateCalendarAccess` pre-flight, event validation, request marshalling,
  error classification, response mapping) and the metrics-recording
  `GoogleCalendarAdapter.ListCalendars` / `CreateEvent` wrappers;
* `internal/infrastructure/gcal/rate_limiter.go` — `NewRateLimiter`,
  `Allow`, `Wait`, `Reset`, on top of a model of `golang.org/x/time/rate`;
* the `crypto` package (`TokenEncryption.Encrypt` / `Decrypt`).

Conventions: Go byte slices are `List Nat`; parsed `time.Time` instants are
`Int` nanoseconds since the civil epoch (Go stores integral nanoseconds);
rate-limiter instants and `float64` token counts are `ℚ` (the arithmetic
exercised by the theorems is exact); Go pointers whose identity matters are
modelled as an address (`Nat`) paired with the pointed-to value; fallible Go
calls return `Except`/`Option`.
External collaborators (the raw Google API client) are oracles supplied as
function-valued fields, and each service call is recorded in an explicit
trace so that "no network call is made" is a statement about the trace.
-/

/-! ## String helpers: model of Go `strings.Contains` -/

/-- Model of a prefix test on character lists (Go `strings.HasPrefix` over runes). -/
def leadsWith : List Char → List Char → Bool
  | [], _ => true
  | _ :: _, [] => false
  | a :: as, b :: bs => a == b && leadsWith as bs

/-- Model of Go `strings.Contains` (substring occurrence), on character lists. -/
def hasSubList (pat : List Char) : List Char → Bool
  | [] => leadsWith pat []
  | c :: cs => leadsWith pat (c :: cs) || hasSubList pat cs

/-- Model of Go `strings.Contains s pat`. -/
def hasSub (s pat : String) : Bool :=
  hasSubList pat.data s.data

/-! ## Model of Go `time.Parse(time.RFC3339, s)` and `time.Before`

`time.Parse` with the RFC3339 layout accepts exactly
`YYYY-MM-DDThh:mm:ss[.fff...](Z|±hh:mm)` with range checks on month, day
(month-aware, leap-year aware), hour, minute and second.  A parsed time is
reduced here to its absolute instant — integral nanoseconds since the civil
epoch, exactly Go's internal precision — because `time.Before` on parsed
absolute times is exactly `<` on that instant. -/

/-- Value of one decimal digit character, `none` for a non-digit. -/
def digitVal (c : Char) : Option Nat :=
  if c.isDigit then some (c.toNat - 48) else none

/-- Read exactly `n` decimal digits, most significant first, returning the
accumulated value and the rest of the input. -/
def readDigits (acc : Nat) : Nat → List Char → Option (Nat × List Char)
  | 0, cs => some (acc, cs)
  | _ + 1, [] => none
  | n + 1, c :: cs =>
    match digitVal c with
    | some d => readDigits (acc * 10 + d) n cs
    | none => none

/-- Consume one expected character. -/
def expectChar (c : Char) : List Char → Option (List Char)
  | [] => none
  | x :: xs => if x = c then some xs else none

/-- Consume a maximal run of digits, returning their value, their count and
the rest of the input. -/
def readDigitRun : List Char → Nat × Nat × List Char
  | [] => (0, 0, [])
  | c :: cs =>
    match digitVal c with
    | some d =>
      let (v, k, rest) := readDigitRun cs
      (d * 10 ^ k + v, k + 1, rest)
    | none => (0, 0, c :: cs)

/-- Optional fractional-second part: either absent, or a dot followed by at
least one digit, valued in nanoseconds (Go keeps the first nine fractional
digits and skips the rest; truncating integer division realizes that for
longer runs). -/
def parseFrac : List Char → Option (Nat × List Char)
  | [] => some (0, [])
  | c :: cs =>
    if c = '.' then
      let (v, k, rest) := readDigitRun cs
      if k = 0 then none
      else if k ≤ 9 then some (v * 10 ^ (9 - k), rest)
      else some (v / 10 ^ (k - 9), rest)
    else some (0, c :: cs)

/-- Numeric UTC offset: `Z`, or a sign followed by `hh:mm`.  Returns the
sign, offset hours, offset minutes and the rest of the input. -/
def parseOffset : List Char → Option (Int × Nat × Nat × List Char)
  | [] => none
  | c :: cs =>
    if c = 'Z' then some (1, 0, 0, cs)
    else if c = '+' ∨ c = '-' then do
      let (oh, r) ← readDigits 0 2 cs
      let r ← expectChar ':' r
      let (om, r) ← readDigits 0 2 r
      some (if c = '-' then (-1 : Int) else 1, oh, om, r)
    else none

/-- Leap-year rule used by Go's `time` package. -/
def isLeap (y : Nat) : Bool :=
  y % 4 = 0 && (y % 100 ≠ 0 || y % 400 = 0)

/-- Number of days in a month (month-aware, leap-year aware), as checked by
Go's date validation. -/
def daysIn (y mo : Nat) : Nat :=
  if mo = 2 then (if isLeap y then 29 else 28)
  else if mo = 4 ∨ mo = 6 ∨ mo = 9 ∨ mo = 11 then 30
  else 31

/-- Days from the civil epoch 1970-01-01 for a proleptic Gregorian date
(standard civil-from-days inverse; the adjustment of `y` makes every
truncated division below act on nonnegative operands). -/
def daysFromCivil (y mo d : Int) : Int :=
  let y' := if mo ≤ 2 then y - 1 else y
  let era := (if 0 ≤ y' then y' else y' - 399) / 400
  let yoe := y' - era * 400
  let mp := (mo + 9) % 12
  let doy := (153 * mp + 2) / 5 + d - 1
  let doe := yoe * 365 + yoe / 4 - yoe / 100 + doy
  era * 146097 + doe - 719468

/-- Date part `YYYY-MM-DD` with Go's range checks, reduced to days from the
civil epoch. -/
def parseDatePart (cs : List Char) : Option (Int × List Char) := do
  let (y, r) ← readDigits 0 4 cs
  let r ← expectChar '-' r
  let (mo, r) ← readDigits 0 2 r
  let r ← expectChar '-' r
  let (d, r) ← readDigits 0 2 r
  if 1 ≤ mo ∧ mo ≤ 12 ∧ 1 ≤ d ∧ d ≤ daysIn y mo then
    some (daysFromCivil (y : Int) (mo : Int) (d : Int), r)
  else none

/-- Clock part `hh:mm:ss` with Go's range checks, reduced to seconds into
the day. -/
def parseTimePart (cs : List Char) : Option (Nat × List Char) := do
  let (h, r) ← readDigits 0 2 cs
  let r ← expectChar ':' r
  let (mi, r) ← readDigits 0 2 r
  let r ← expectChar ':' r
  let (sec, r) ← readDigits 0 2 r
  if h ≤ 23 ∧ mi ≤ 59 ∧ sec ≤ 59 then some (h * 3600 + mi * 60 + sec, r)
  else none

/-- Offset part with range checks, reduced to signed offset seconds. -/
def parseOffsetPart (cs : List Char) : Option (Int × List Char) := do
  let (sgn, oh, om, r) ← parseOffset cs
  if oh ≤ 23 ∧ om ≤ 59 then some (sgn * ((oh : Int) * 3600 + (om : Int) * 60), r)
  else none

/-- Model of Go `time.Parse(time.RFC3339, s)`, reduced to the absolute
instant of the parsed time: integral nanoseconds relative to the civil
epoch, with the numeric offset subtracted exactly as the wall-clock/offset
split does.  On parsed times, `time.Before` is `<` on this instant.
Returns `none` exactly when Go's parse returns an error. -/
def parseRFC3339 (s : String) : Option Int := do
  let (days, r) ← parseDatePart s.data
  let r ← expectChar 'T' r
  let (secs, r) ← parseTimePart r
  let (nanos, r) ← parseFrac r
  let (off, r) ← parseOffsetPart r
  if r = [] then
    some ((days * 86400 + (secs : Int) - off) * 1000000000 + (nanos : Int))
  else none

/-! ## Domain entities (`internal/domain/calendar.go`) -/

/-- Pointer to a Go string: the address of the string-typed slot together
with the string value it holds.  Address identity is what the no-aliasing
properties are about. -/
structure StrPtr where
  addr : Nat
  val : String
deriving DecidableEq, Repr

set_option linter.dupNamespace false

/-- Domain value object `domain.DateTime`. -/
structure DateTime where
  DateTime : String
  Date : String
  TimeZone : String
deriving DecidableEq, Repr

/-- Domain entity `domain.Calendar`. -/
structure Calendar where
  ID : String
  Title : String
  Description : String
  TimeZone : String
deriving DecidableEq, Repr

/-- Domain entity `domain.Event`.  The Go field `Location *string` is a
nullable string pointer, modelled as `Option StrPtr`. -/
structure Event where
  ID : String
  Title : String
  Description : String
  Start : DateTime
  End : DateTime
  Location : Option StrPtr
  Attendees : List String
deriving DecidableEq, Repr

/-- Model of `(*Event).validateDateTime`: returns the error message, or
`none` on success.  Mirrors the source order: start presence, end presence,
then (only when both `DateTime` fields are set) RFC3339 parsing of each and
the end-before-start check via `time.Before`. -/
def Event.validateDateTime (e : Event) : Option String :=
  if e.Start.DateTime = "" ∧ e.Start.Date = "" then
    some "event start date/time is required"
  else if e.End.DateTime = "" ∧ e.End.Date = "" then
    some "event end date/time is required"
  else if e.Start.DateTime ≠ "" ∧ e.End.DateTime ≠ "" then
    match parseRFC3339 e.Start.DateTime with
    | none => some "invalid start datetime format"
    | some startTime =>
      match parseRFC3339 e.End.DateTime with
      | none => some "invalid end datetime format"
      | some endTime =>
        if endTime < startTime then
          some "event end time cannot be before start time"
        else none
  else none

/-- Model of `(*Event).Validate`: empty-title check, then the date/time
validation. -/
def Event.Validate (e : Event) : Option String :=
  if e.Title = "" then some "event title is required"
  else e.validateDateTime

/-! ## Error values (`pkg/errors/errors.go`, `context`)

The repository defines four error types: `ConfigError`, `OAuthError`,
`APIError` (operation, message, status code, wrapped cause) and
`ValidationError` (field, message, wrapped cause).  There is no separate
cancellation error type; the `context` package sentinels appear only as
wrapped causes. -/

/-- Sentinel errors of Go's `context` package. -/
inductive CtxErr where
  | canceled
  | deadlineExceeded
deriving DecidableEq, Repr

/-- Failure reported by the raw Google API client: what `err.Error()` prints
(`text`) together with the upstream HTTP status that produced it (`code`).
The repository's classification logic inspects only `text`. -/
structure UpstreamErr where
  code : Nat
  text : String
deriving DecidableEq, Repr

/-- Wrapped cause inside an application error: an upstream client error, a
`context` sentinel, or an event-validation message from `Event.Validate`. -/
inductive ErrCause where
  | up (e : UpstreamErr)
  | ctx (c : CtxErr)
  | eventInvalid (msg : String)
deriving DecidableEq, Repr

/-- Application error values, mirroring `pkg/errors`: `NewAPIError` builds
`api`, `NewValidationError` builds `validation` (the `config`/`oauth`
constructors exist in the package but are not built by the code modelled
here). -/
inductive AppErr where
  | config (field msg : String) (cause : Option ErrCause)
  | oauth (operation msg : String) (cause : Option ErrCause)
  | api (operation msg : String) (code : Nat) (cause : Option ErrCause)
  | validation (field msg : String) (cause : Option ErrCause)
deriving DecidableEq, Repr

/-- Error kind: which of the four error types of `pkg/errors` a value is.
This is what a caller can distinguish by type assertion. -/
inductive ErrKind where
  | config
  | oauth
  | api
  | validation
deriving DecidableEq, Repr

/-- Kind of an application error. -/
def AppErr.kind : AppErr → ErrKind
  | .config _ _ _ => .config
  | .oauth _ _ _ => .oauth
  | .api _ _ _ _ => .api
  | .validation _ _ _ => .validation

/-- Decidable equality for `Except` results, so concrete runs can be
checked by evaluation. -/
instance {ε α : Type} [DecidableEq ε] [DecidableEq α] : DecidableEq (Except ε α) := fun a b =>
  match a, b with
  | .error e₁, .error e₂ =>
    if h : e₁ = e₂ then .isTrue (by rw [h]) else .isFalse (fun hc => h (by cases hc; rfl))
  | .ok x, .ok y =>
    if h : x = y then .isTrue (by rw [h]) else .isFalse (fun hc => h (by cases hc; rfl))
  | .error _, .ok _ => .isFalse (fun hc => Except.noConfusion hc)
  | .ok _, .error _ => .isFalse (fun hc => Except.noConfusion hc)

/-! ## Wire shapes of the Google Calendar client (`google.golang.org/api/calendar/v3`)

Only the fields the adapter reads or writes are modelled.  The response
object additionally carries the address of its `Location` field, because
`CreateEvent` takes `&created.Location` and pointer identity is one of the
checked properties. -/

/-- Wire value `calendar.EventDateTime`. -/
structure GDateTime where
  DateTime : String
  Date : String
  TimeZone : String
deriving DecidableEq, Repr

/-- Wire request `calendar.Event` as built by the adapter (attendees are
reduced to their email strings: the adapter builds one `EventAttendee` per
email and later reads only `.Email` back). -/
structure GEvent where
  Summary : String
  Description : String
  Start : GDateTime
  End : GDateTime
  Location : String
  Attendees : List String
deriving DecidableEq, Repr

/-- Wire response `*calendar.Event` returned by `Events.Insert(...).Do()`.
`LocationAddr` is the memory address of this object's `Location` field, so
that `&created.Location` is expressible. -/
structure GEventResp where
  Id : String
  Summary : String
  Description : String
  Start : GDateTime
  End : GDateTime
  Location : String
  LocationAddr : Nat
  Attendees : List String
deriving DecidableEq, Repr

/-- One outbound network call to the Google Calendar service, in the order
performed. -/
inductive NetCall where
  | calendarsGet (calID : String)
  | eventsInsert (calID : String) (ev : GEvent)
  | calendarListList
deriving DecidableEq, Repr

/-- Oracle for the raw `*calendar.Service` client: the outcome of each
remote endpoint the adapter uses. -/
structure RawService where
  calendarsGet : String → Except UpstreamErr Unit
  eventsInsert : String → GEvent → Except UpstreamErr GEventResp
  calendarListList : Except UpstreamErr (List Calendar)

/-- Internal wrapper `googleCalendarService` around the raw client. -/
structure googleCalendarService where
  raw : RawService

/-! ## `googleCalendarService.CreateEvent` and helpers
(`google_calendar_adapter.go`, the variant with the pre-flight
calendar-access check) -/

/-- Message built for a 404-style calendar problem during event creation
(source: `fmt.Sprintf` with the calendar ID quoted; the quotes are elided
here). -/
def notFoundMsg (calID : String) : String :=
  "calendar " ++ calID ++ " not found or access denied. Please check the calendar ID and permissions"

/-- Message built for a generic event-creation failure (source:
`fmt.Sprintf("failed to create event in calendar: %v", ...)` with the
calendar ID quoted; the quotes are elided here). -/
def insertFailMsg (calID : String) (e : UpstreamErr) : String :=
  "failed to create event in calendar " ++ calID ++ ": " ++ e.text

/-- Message of the `ValidationError` built by `validateCalendarAccess` for a
404-style failure. -/
def accessNotFoundMsg (calID : String) : String :=
  "calendar " ++ calID ++ " not found or access denied. Please verify the calendar ID and ensure you have access to it"

/-- Model of `googleCalendarService.validateCalendarAccess`: performs the
`Calendars.Get` call; a failure whose text contains `404` or `notFound`
becomes a `ValidationError`, any other failure an `APIError` with code 500,
both wrapping the upstream error.  Returns the classified error or `none`. -/
def googleCalendarService.validateCalendarAccess (g : googleCalendarService)
    (calID : String) : Option AppErr :=
  match g.raw.calendarsGet calID with
  | .ok _ => none
  | .error e =>
    if hasSub e.text "404" || hasSub e.text "notFound" then
      some (.validation "calendar_id" (accessNotFoundMsg calID) (some (.up e)))
    else
      some (.api "validate_calendar" ("failed to validate calendar access: " ++ e.text) 500
        (some (.up e)))

/-- Model of the request-marshalling block of `CreateEvent`: domain event to
wire event.  The location pointer, when present, is dereferenced and its
string value copied into the wire field (`gcalEv.Location = *ev.Location`);
attendees become one wire entry per email in input order. -/
def marshalEvent (ev : Event) : GEvent :=
  { Summary := ev.Title
    Description := ev.Description
    Start := ⟨ev.Start.DateTime, ev.Start.Date, ev.Start.TimeZone⟩
    End := ⟨ev.End.DateTime, ev.End.Date, ev.End.TimeZone⟩
    Location := match ev.Location with
      | some p => p.val
      | none => ""
    Attendees := ev.Attendees }

/-- Model of the response-mapping block of `CreateEvent`: wire response to
domain event.  The domain `Location` is `&created.Location` — the address of
the wire response object's own field, holding that field's value. -/
def mapCreated (created : GEventResp) : Event :=
  { ID := created.Id
    Title := created.Summary
    Description := created.Description
    Start := ⟨created.Start.DateTime, created.Start.Date, created.Start.TimeZone⟩
    End := ⟨created.End.DateTime, created.End.Date, created.End.TimeZone⟩
    Location := some ⟨created.LocationAddr, created.Location⟩
    Attendees := created.Attendees }

/-- Model of `googleCalendarService.CreateEvent` (the variant with the
pre-flight access check).  The event pointer is `Option Event` (`nil` is
`none`).  Returns the Go result together with the trace of network calls
made, in order.  Source order: nil check, empty-calendar-ID check,
`validateCalendarAccess`, `ev.Validate`, marshalling, `Events.Insert`,
error classification or response mapping. -/
def googleCalendarService.CreateEvent (g : googleCalendarService)
    (calID : String) (ev : Option Event) : Except AppErr Event × List NetCall :=
  match ev with
  | none => (.error (.validation "event" "event cannot be nil" none), [])
  | some ev =>
    if calID = "" then
      (.error (.validation "calendar_id" "calendar ID cannot be empty" none), [])
    else
      match g.validateCalendarAccess calID with
      | some e => (.error e, [NetCall.calendarsGet calID])
      | none =>
        match ev.Validate with
        | some verr =>
          (.error (.validation "event" "invalid event data" (some (.eventInvalid verr))),
            [NetCall.calendarsGet calID])
        | none =>
          let gcalEv := marshalEvent ev
          match g.raw.eventsInsert calID gcalEv with
          | .error e =>
            let errorMsg :=
              if hasSub e.text "404" || hasSub e.text "notFound" then notFoundMsg calID
              else insertFailMsg calID e
            (.error (.api "create_event" errorMsg 500 (some (.up e))),
              [NetCall.calendarsGet calID, NetCall.eventsInsert calID gcalEv])
          | .ok created =>
            (.ok (mapCreated created),
              [NetCall.calendarsGet calID, NetCall.eventsInsert calID gcalEv])

/-! ## Rate limiter (`rate_limiter.go`, `golang.org/x/time/rate`,
`github.com/cenkalti/backoff/v5`)

`golang.org/x/time/rate.Limiter` is a token bucket: a limit (tokens per
second), a burst cap, a current token count and the time of the last
update.  Instants and token counts are `ℚ` (the Go floats are exact on the
arithmetic exercised here); the Go zero `time.Time` of a freshly
constructed limiter is instant `0`, and real call instants are far to its
right. -/

/-- State of `rate.Limiter` (the fields `limit`, `burst`, `tokens`,
`last`). -/
structure Limiter where
  limit : ℚ
  burst : ℚ
  tokens : ℚ
  last : ℚ
deriving DecidableEq, Repr

/-- Model of `rate.NewLimiter(limit, burst)`: zero tokens, zero last-update
time (the Go zero value of both fields). -/
def rateNewLimiter (limit burst : ℚ) : Limiter :=
  { limit := limit, burst := burst, tokens := 0, last := 0 }

/-- Model of `Limiter.AllowN(now, 1)` (which is `Allow()` at instant `now`):
advance the bucket by the elapsed time capped at burst, try to take one
token; on success commit the decremented count and `last := now`, on
failure leave the count and restore the (adjusted) previous `last`.
Returns the decision and the post state. -/
def Limiter.allow (l : Limiter) (now : ℚ) : Bool × Limiter :=
  let last := if now < l.last then now else l.last
  let tokens0 := l.tokens + (now - last) * l.limit
  let tokens1 := if l.burst < tokens0 then l.burst else tokens0
  let tokens := tokens1 - 1
  if 1 ≤ l.burst ∧ 0 ≤ tokens then
    (true, { limit := l.limit, burst := l.burst, tokens := tokens, last := now })
  else
    (false, { limit := l.limit, burst := l.burst, tokens := l.tokens, last := last })

/-- State of `backoff.ExponentialBackOff` as configured by this repository:
the retry-schedule bookkeeping that `Reset` reinitializes. -/
structure BackOff where
  initialInterval : ℚ
  maxInterval : ℚ
  currentInterval : ℚ
  multiplier : ℚ
  randomizationFactor : ℚ
deriving DecidableEq, Repr

/-- Model of the `backoff.NewExponentialBackOff()` object as configured in
both `NewRateLimiter` and `Reset`: initial interval 100ms, max 10s,
multiplier 2.0, randomization factor 0.2 (intervals in seconds). -/
def newExponentialBackOff : BackOff :=
  { initialInterval := 1 / 10
    maxInterval := 10
    currentInterval := 1 / 10
    multiplier := 2
    randomizationFactor := 1 / 5 }

/-- Quota constant `QPS` from `rate_limiter.go`. -/
def QPS : ℚ := 1

/-- State of `gcal.RateLimiter`: the token bucket and the backoff object. -/
structure RateLimiter where
  limiter : Limiter
  backoff : BackOff
deriving DecidableEq, Repr

/-- Model of `NewRateLimiter()`: `rate.NewLimiter(rate.Limit(QPS), 10)` plus
the configured exponential backoff. -/
def NewRateLimiter : RateLimiter :=
  { limiter := rateNewLimiter QPS 10, backoff := newExponentialBackOff }

/-- Model of `(*RateLimiter).Allow()` at instant `now`: delegates to the
bucket; returns the decision and the post state. -/
def RateLimiter.Allow (r : RateLimiter) (now : ℚ) : Bool × RateLimiter :=
  let (ok, l) := r.limiter.allow now
  (ok, { r with limiter := l })

/-- Model of `(*RateLimiter).Reset()`: replaces the backoff object with a
freshly configured one and touches nothing else. -/
def RateLimiter.Reset (r : RateLimiter) : RateLimiter :=
  { r with backoff := newExponentialBackOff }

/-- Result of `(*RateLimiter).Wait`: the returned error (`none` on success)
and how many backoff-ticker intervals were waited before returning. -/
structure WaitOutcome where
  err : Option AppErr
  backoffWaits : Nat
deriving DecidableEq, Repr

/-- Model of `(*RateLimiter).Wait(ctx)` for a context whose `Err()` is the
constant `ctxErr`.  The first statement calls `rate.Limiter.Wait(ctx)`,
which returns `ctx.Err()` without blocking when the context is already done
and, for a live context with no deadline and burst ≥ 1, blocks until a
token is refilled and returns nil.  In the first case `ctx.Err() != nil`
holds and the function returns `NewAPIError("rate_limit", "context
canceled", 429, ctx.Err())` before the backoff ticker is created; in the
second it returns nil.  Either way the ticker loop of the source is never
entered, so zero backoff intervals are waited. -/
def RateLimiter.Wait (_ : RateLimiter) (ctxErr : Option CtxErr) : WaitOutcome :=
  match ctxErr with
  | none => { err := none, backoffWaits := 0 }
  | some c =>
    { err := some (.api "rate_limit" "context canceled" 429 (some (.ctx c)))
      backoffWaits := 0 }

/-- Iterated `Allow` at one instant: the list of decisions of `n`
back-to-back calls and the final state. -/
def RateLimiter.allowRun (r : RateLimiter) (now : ℚ) : Nat → List Bool × RateLimiter
  | 0 => ([], r)
  | n + 1 =>
    let (ok, r1) := r.Allow now
    let (rest, r2) := r1.allowRun now n
    (ok :: rest, r2)

/-! ## Metrics-recording adapter (`GoogleCalendarAdapter`, the variant with
Prometheus observations)

The Prometheus counters are recorded as an explicit observation list; the
injected `CalendarService` is an oracle giving the outcome of one call to
each method. -/

/-- One observability side effect, in the order recorded. -/
inductive Obs where
  | apiRequest (op : String)
  | rateLimitHit
  | apiError (op errKind : String)
  | responseDuration (op : String)
deriving DecidableEq, Repr

/-- Sentinel `RateLimitExceededError` from the adapter source. -/
def RateLimitExceededError : AppErr :=
  .api "rate_limit" "rate limit exceeded" 429 none

/-- Oracle for the injected `CalendarService`: outcome of one call to each
interface method. -/
structure CalendarService where
  ListCalendars : Except AppErr (List Calendar)
  CreateEvent : String → Option Event → Except AppErr Event

/-- The adapter: injected service plus its rate limiter. -/
structure GoogleCalendarAdapter where
  service : CalendarService
  limiter : RateLimiter

/-- Result of one adapter operation: the Go return value, the recorded
observations in order, the number of calls made to the injected service,
and the post-state of the limiter. -/
structure AdapterResult (α : Type) where
  out : Except AppErr α
  obs : List Obs
  svcCalls : Nat
  limiter : RateLimiter

/-- Model of `(*GoogleCalendarAdapter).ListCalendars` at instant `now`:
record the request attempt; consult `Allow`; on rejection record the
rate-limit hit and the tagged error and return `RateLimitExceededError`
without calling the service; otherwise call the service once, record the
response duration, and on failure record the tagged error. -/
def GoogleCalendarAdapter.ListCalendars (a : GoogleCalendarAdapter) (now : ℚ) :
    AdapterResult (List Calendar) :=
  let op := "list_calendars"
  let (ok, r1) := a.limiter.Allow now
  if !ok then
    { out := .error RateLimitExceededError
      obs := [.apiRequest op, .rateLimitHit, .apiError op "rate_limit"]
      svcCalls := 0
      limiter := r1 }
  else
    match a.service.ListCalendars with
    | .error e =>
      { out := .error e
        obs := [.apiRequest op, .responseDuration op, .apiError op "api_error"]
        svcCalls := 1
        limiter := r1 }
    | .ok cals =>
      { out := .ok cals
        obs := [.apiRequest op, .responseDuration op]
        svcCalls := 1
        limiter := r1 }

/-- Model of `(*GoogleCalendarAdapter).CreateEvent` at instant `now`: same
shape as `ListCalendars` around one call to the injected service's
`CreateEvent`. -/
def GoogleCalendarAdapter.CreateEvent (a : GoogleCalendarAdapter) (now : ℚ)
    (calendarID : String) (event : Option Event) : AdapterResult Event :=
  let op := "create_event"
  let (ok, r1) := a.limiter.Allow now
  if !ok then
    { out := .error RateLimitExceededError
      obs := [.apiRequest op, .rateLimitHit, .apiError op "rate_limit"]
      svcCalls := 0
      limiter := r1 }
  else
    match a.service.CreateEvent calendarID event with
    | .error e =>
      { out := .error e
        obs := [.apiRequest op, .responseDuration op, .apiError op "api_error"]
        svcCalls := 1
        limiter := r1 }
    | .ok ev =>
      { out := .ok ev
        obs := [.apiRequest op, .responseDuration op]
        svcCalls := 1
        limiter := r1 }

/-! ## Token encryption (`crypto` package: `TokenEncryption`)

Bytes are `List Nat`.  `pbkdf2.Key(pass, salt, 100000, 32, sha256.New)` is
modelled as a deterministic 32-byte derivation from passphrase and salt (its
iteration structure is irrelevant to the properties proved here), and
AES-256-GCM as an authenticated encryption scheme with a 12-byte nonce and a
16-byte appended tag satisfying the AEAD contract: `Open` returns the sealed
plaintext exactly when the trailing tag matches the one `Seal` appends for
the same key and nonce.  `aes.NewCipher` and `cipher.NewGCM` cannot fail on
the 32-byte keys produced by the derivation, so their error paths are not
modelled. -/

/-- Nonce size of `cipher.NewGCM(block)` (the GCM standard nonce size). -/
def gcmNonceSize : Nat := 12

/-- Modelled contract of `pbkdf2.Key(pass, salt, 100000, 32, sha256.New)`:
a deterministic 32-byte key from passphrase and salt. -/
def pbkdf2Key (pass salt : List Nat) : List Nat :=
  (List.range 32).map fun i =>
    (pass.foldl (fun a b => a * 33 + b) 5 + salt.foldl (fun a b => a * 31 + b) 7 + i) % 256

/-- Modelled GCM authentication tag over key, nonce and message. -/
def gcmTag (key nonce msg : List Nat) : List Nat :=
  (List.range 16).map fun i =>
    ((key ++ nonce ++ msg).foldl (fun a b => (a * 131 + b) % 65536) 1 + i) % 256

/-- Modelled `gcm.Seal(nil-dst, nonce, msg, nil)` payload: the protected
message followed by its 16-byte tag.  (In the source the nonce is the `dst`
argument, so the nonce is prepended by the caller.) -/
def gcmSeal (key nonce msg : List Nat) : List Nat :=
  msg ++ gcmTag key nonce msg

/-- Modelled `gcm.Open(nil, nonce, ct, nil)`: succeeds with the message
exactly when the trailing 16 bytes are the tag of the leading bytes. -/
def gcmOpen (key nonce ct : List Nat) : Option (List Nat) :=
  if 16 ≤ ct.length then
    let msg := ct.take (ct.length - 16)
    if ct.drop (ct.length - 16) = gcmTag key nonce msg then some msg else none
  else none

/-- Model of `(*TokenEncryption).Encrypt`.  The two random draws (the
16-byte salt and the `gcm.NonceSize()`-byte nonce) are explicit arguments;
the result is `salt ++ (nonce ++ sealed)` exactly as the source builds
`result` from `salt` and `ciphertext = gcm.Seal(nonce, nonce, plaintext,
nil)`. -/
def Encrypt (pass salt nonce plaintext : List Nat) : List Nat :=
  let key := pbkdf2Key pass salt
  let ciphertext := nonce ++ gcmSeal key nonce plaintext
  salt ++ ciphertext

/-- Outcome of `(*TokenEncryption).Decrypt`: a plaintext, an error message,
or a Go runtime panic (out-of-bounds slice). -/
inductive DecOut where
  | ok (plaintext : List Nat)
  | err (msg : String)
  | panicked
deriving DecidableEq, Repr

/-- Go slice expression `b[:i]`: panics (is `none`) unless `i ≤ len(b)`. -/
def goSliceTo (b : List Nat) (i : Nat) : Option (List Nat) :=
  if i ≤ b.length then some (b.take i) else none

/-- Go slice expression `b[i:]`: panics (is `none`) unless `i ≤ len(b)`. -/
def goSliceFrom (b : List Nat) (i : Nat) : Option (List Nat) :=
  if i ≤ b.length then some (b.drop i) else none

/-- Model of `(*TokenEncryption).Decrypt`, with every slice expression
bounds-checked as Go would: length guard of 16, salt/ciphertext split,
key re-derivation, nonce-length guard, nonce/body split, authenticated
open. -/
def Decrypt (pass encrypted : List Nat) : DecOut :=
  if encrypted.length < 16 then .err "encrypted data too short"
  else
    match goSliceTo encrypted 16, goSliceFrom encrypted 16 with
    | some salt, some ciphertext =>
      let key := pbkdf2Key pass salt
      if ciphertext.length < gcmNonceSize then .err "ciphertext too short"
      else
        match goSliceTo ciphertext gcmNonceSize, goSliceFrom ciphertext gcmNonceSize with
        | some nonce, some body =>
          match gcmOpen key nonce body with
          | some plaintext => .ok plaintext
          | none => .err "cipher: message authentication failed"
        | _, _ => .panicked
    | _, _ => .panicked

/-! ## Concrete fixtures used by witnesses and counterexamples -/

/-- Spec property: both endpoints carry full ISO-8601 timestamps and the end
instant is chronologically before the start instant. -/
def endBeforeStart (ev : Event) : Prop :=
  ∃ ts te : Int, parseRFC3339 ev.Start.DateTime = some ts ∧
    parseRFC3339 ev.End.DateTime = some te ∧ te < ts

/-- An event whose title is empty (other fields well-formed). -/
def evEmptyTitle : Event :=
  { ID := ""
    Title := ""
    Description := ""
    Start := ⟨"", "2025-06-01", ""⟩
    End := ⟨"", "2025-06-01", ""⟩
    Location := none
    Attendees := [] }

/-- A fully valid event, with a location pointer at address 7. -/
def evOK : Event :=
  { ID := ""
    Title := "mtg"
    Description := "weekly sync"
    Start := ⟨"2025-06-01T10:00:00+09:00", "", "Asia/Tokyo"⟩
    End := ⟨"2025-06-01T11:00:00+09:00", "", "Asia/Tokyo"⟩
    Location := some ⟨7, "HQ"⟩
    Attendees := ["a@example.com"] }

/-- The spec example event: end timestamp chronologically before start. -/
def evEndBeforeStart : Event :=
  { ID := ""
    Title := "mtg"
    Description := ""
    Start := ⟨"2025-06-01T11:00:00+09:00", "", ""⟩
    End := ⟨"2025-06-01T10:00:00+09:00", "", ""⟩
    Location := none
    Attendees := [] }

/-- A wire response whose `Location` field lives at address 42. -/
def created0 : GEventResp :=
  { Id := "evt123"
    Summary := "mtg"
    Description := "weekly sync"
    Start := ⟨"2025-06-01T10:00:00+09:00", "", "Asia/Tokyo"⟩
    End := ⟨"2025-06-01T11:00:00+09:00", "", "Asia/Tokyo"⟩
    Location := "Room 1"
    LocationAddr := 42
    Attendees := ["a@example.com"] }

/-- Upstream failure with HTTP status 403 whose text mentions neither `404`
nor `notFound`. -/
def err403 : UpstreamErr := ⟨403, "googleapi: Error 403: forbidden"⟩

/-- Upstream 404-style failure. -/
def err404 : UpstreamErr := ⟨404, "googleapi: Error 404: notFound"⟩

/-- Service whose raw client succeeds everywhere (insert returns
`created0`). -/
def gcalAllOK : googleCalendarService :=
  ⟨{ calendarsGet := fun _ => .ok ()
     eventsInsert := fun _ _ => .ok created0
     calendarListList := .ok [] }⟩

/-- Service whose insert fails with `err403` (access check succeeds). -/
def gcalInsert403 : googleCalendarService :=
  ⟨{ calendarsGet := fun _ => .ok ()
     eventsInsert := fun _ _ => .error err403
     calendarListList := .ok [] }⟩

/-- Service whose access check fails with `err404`. -/
def gcalGet404 : googleCalendarService :=
  ⟨{ calendarsGet := fun _ => .error err404
     eventsInsert := fun _ _ => .ok created0
     calendarListList := .ok [] }⟩

/-- A rate limiter whose bucket is empty at instant 5 (last update at 5). -/
def exhaustedRL : RateLimiter :=
  { limiter := { limit := 1, burst := 10, tokens := 0, last := 5 }
    backoff := newExponentialBackOff }

/-- A trivial injected calendar service for the adapter fixtures. -/
def svcStub : CalendarService :=
  { ListCalendars := .ok []
    CreateEvent := fun _ _ => .ok evOK }

/-- Adapter over `svcStub` whose limiter is exhausted. -/
def adapterExhausted : GoogleCalendarAdapter :=
  { service := svcStub, limiter := exhaustedRL }

/-! ## Theorems -/

/-- The modelled GCM tag is 16 bytes. -/
theorem gcmTag_length (key nonce msg : List Nat) : (gcmTag key nonce msg).length = 16 := by
  simp [gcmTag]

/-- AEAD round trip of the modelled GCM: opening a sealed payload with the
same key and nonce recovers the message. -/
theorem gcmOpen_gcmSeal (key nonce msg : List Nat) :
    gcmOpen key nonce (gcmSeal key nonce msg) = some msg := by
  unfold gcmOpen gcmSeal
  have hlen : (msg ++ gcmTag key nonce msg).length = msg.length + 16 := by
    simp [gcmTag_length]
  rw [hlen]
  have hsub : msg.length + 16 - 16 = msg.length := by omega
  rw [hsub, List.take_left, List.drop_left]
  simp

/-- C10: `CreateEvent(ctx, calID, nil)` returns the `ValidationError`
"event cannot be nil" with an empty network-call trace — the nil pointer is
never dereferenced (the nil check is the first statement) and no call to
the calendar service is made. -/
theorem claim10_thm (g : googleCalendarService) (calID : String) :
    g.CreateEvent calID none =
      (.error (.validation "event" "event cannot be nil" none), []) := rfl

/-- C4 (amended): `RateLimiter.Wait` on an already-done context returns
immediately, having waited zero backoff intervals, with the `APIError`
(operation `rate_limit`, message `context canceled`, code 429) wrapping the
context's error — an `APIError`, not a distinct cancellation kind. -/
theorem claim4_thm (r : RateLimiter) (c : CtxErr) :
    r.Wait (some c) =
      { err := some (.api "rate_limit" "context canceled" 429 (some (.ctx c)))
        backoffWaits := 0 } := rfl

/-- C4 counterexample: the error returned for an already-cancelled context
has kind `api` — exactly the kind of the error the service layer returns
for a genuine upstream failure — so it is not an error kind that
distinguishes caller cancellation from upstream failure. -/
theorem claim4_cex :
    (NewRateLimiter.Wait (some CtxErr.canceled)).err =
      some (AppErr.api "rate_limit" "context canceled" 429 (some (.ctx .canceled))) ∧
    (gcalInsert403.CreateEvent "primary" (some evOK)).1 =
      .error (AppErr.api "create_event" (insertFailMsg "primary" err403) 500
        (some (.up err403))) ∧
    (AppErr.api "rate_limit" "context canceled" 429 (some (.ctx .canceled))).kind =
      (AppErr.api "create_event" (insertFailMsg "primary" err403) 500
        (some (.up err403))).kind := by
  refine ⟨rfl, ?_, rfl⟩
  decide

/-- One `Allow` call at the bucket's own `last` instant (no elapsed time):
succeeds exactly when a whole token is present, decrementing it; otherwise
denies and leaves the state unchanged. -/
theorem Limiter.allow_same_instant (b t now : ℚ) (ht : t ≤ b) :
    Limiter.allow ⟨1, b, t, now⟩ now =
      if 1 ≤ b ∧ 1 ≤ t then (true, ⟨1, b, t - 1, now⟩) else (false, ⟨1, b, t, now⟩) := by
  simp only [Limiter.allow, lt_irrefl, if_false, sub_self, zero_mul, mul_one, add_zero]
  rw [if_neg (not_lt.mpr ht)]
  by_cases h : 1 ≤ b ∧ 1 ≤ t
  · rw [if_pos ⟨h.1, by linarith [h.2]⟩, if_pos h]
  · rw [if_neg fun hc => h ⟨hc.1, by linarith [hc.2]⟩, if_neg h]

/-- Unfolding of one step of `allowRun`. -/
theorem allowRun_succ (r : RateLimiter) (now : ℚ) (n : Nat) :
    r.allowRun now (n + 1) =
      ((r.Allow now).1 :: ((r.Allow now).2.allowRun now n).1,
        ((r.Allow now).2.allowRun now n).2) := rfl

/-- The first `Allow` on a freshly constructed limiter at any instant at
least `10` (in particular at any real wall-clock instant, which is far past
the Go zero time): the elapsed-time refill fills the bucket to its burst of
10, and the call succeeds leaving 9 tokens. -/
theorem NewRateLimiter_first_allow (now : ℚ) (h : 10 ≤ now) :
    NewRateLimiter.Allow now = (true, ⟨⟨1, 10, 9, now⟩, newExponentialBackOff⟩) := by
  have h0 : ¬ now < 0 := by linarith
  simp only [RateLimiter.Allow, NewRateLimiter, rateNewLimiter, QPS, Limiter.allow, h0,
    if_false, sub_zero, mul_one, zero_add]
  rcases eq_or_lt_of_le h with heq | hlt
  · subst heq
    norm_num
  · rw [if_pos hlt, if_pos ⟨by norm_num, by norm_num⟩]
    norm_num

/-- A run of `n` back-to-back `Allow` calls at one instant, starting from a
bucket holding at least `n` tokens (at most the burst of 10): all succeed,
and `n` tokens are consumed. -/
theorem allowRun_steady (bo : BackOff) (now : ℚ) :
    ∀ (n : Nat) (t : ℚ), (n : ℚ) ≤ t → t ≤ 10 →
    RateLimiter.allowRun ⟨⟨1, 10, t, now⟩, bo⟩ now n =
      (List.replicate n true, ⟨⟨1, 10, t - n, now⟩, bo⟩) := by
  intro n
  induction n with
  | zero =>
    intro t _ _
    simp [RateLimiter.allowRun]
  | succ k ih =>
    intro t h1 h2
    have hk : (1 : ℚ) ≤ t := by
      have hc1 : ((k : ℚ) + 1) ≤ t := by push_cast at h1; linarith
      have hc2 : (0 : ℚ) ≤ (k : ℚ) := Nat.cast_nonneg k
      linarith
    have hstep : RateLimiter.Allow ⟨⟨1, 10, t, now⟩, bo⟩ now =
        (true, ⟨⟨1, 10, t - 1, now⟩, bo⟩) := by
      simp only [RateLimiter.Allow, Limiter.allow_same_instant _ _ _ h2]
      rw [if_pos ⟨by norm_num, hk⟩]
    simp only [RateLimiter.allowRun, hstep]
    rw [ih (t - 1) (by push_cast at h1 ⊢; linarith) (by linarith)]
    refine congrArg₂ Prod.mk ?_ ?_
    · rw [List.replicate_succ]
    · have h2' : t - 1 - (k : ℚ) = t - ((k + 1 : Nat) : ℚ) := by push_cast; ring
      rw [h2']

/-- A run of `k + 1` back-to-back `Allow` calls at one instant, starting
from a bucket holding exactly `k ≤ 10` tokens: the first `k` succeed and the
last is denied. -/
theorem allowRun_exhaust (bo : BackOff) (now : ℚ) :
    ∀ (k : Nat), k ≤ 10 →
    (RateLimiter.allowRun ⟨⟨1, 10, (k : ℚ), now⟩, bo⟩ now (k + 1)).1 =
      List.replicate k true ++ [false] := by
  intro k
  induction k with
  | zero =>
    intro _
    have hdeny : RateLimiter.Allow ⟨⟨1, 10, (0 : ℚ), now⟩, bo⟩ now =
        (false, ⟨⟨1, 10, (0 : ℚ), now⟩, bo⟩) := by
      simp only [RateLimiter.Allow]
      rw [Limiter.allow_same_instant _ _ _ (by norm_num)]
      rw [if_neg fun hc => by linarith [hc.2]]
    simp [RateLimiter.allowRun, hdeny]
  | succ k ih =>
    intro hk1
    have hk0 : (0 : ℚ) ≤ (k : ℚ) := Nat.cast_nonneg k
    have hstep : RateLimiter.Allow ⟨⟨1, 10, ((k + 1 : Nat) : ℚ), now⟩, bo⟩ now =
        (true, ⟨⟨1, 10, ((k : Nat) : ℚ), now⟩, bo⟩) := by
      simp only [RateLimiter.Allow]
      rw [Limiter.allow_same_instant _ _ _ (by exact_mod_cast hk1)]
      rw [if_pos ⟨by norm_num, by push_cast; linarith⟩]
      refine congrArg₂ Prod.mk rfl ?_
      have hc : ((k + 1 : Nat) : ℚ) - 1 = (k : ℚ) := by push_cast; ring
      rw [hc]
    have h1 : (RateLimiter.allowRun ⟨⟨1, 10, ((k + 1 : Nat) : ℚ), now⟩, bo⟩ now (k + 1 + 1)).1 =
        true :: (RateLimiter.allowRun ⟨⟨1, 10, ((k : Nat) : ℚ), now⟩, bo⟩ now (k + 1)).1 := by
      rw [allowRun_succ, hstep]
    rw [h1, ih (by omega), List.replicate_succ]
    rfl

/-- Denial of `Allow` on an empty bucket with no elapsed time. -/
theorem allow_empty_denied (bo : BackOff) (now : ℚ) :
    (RateLimiter.Allow ⟨⟨1, 10, 0, now⟩, bo⟩ now).1 = false := by
  simp only [RateLimiter.Allow]
  rw [Limiter.allow_same_instant _ _ _ (by norm_num)]
  rw [if_neg fun hc => by linarith [hc.2]]

/-- State after ten back-to-back `Allow` calls on a fresh limiter: the
bucket is empty. -/
theorem fresh_run10 (now : ℚ) (h : 10 ≤ now) :
    NewRateLimiter.allowRun now 10 =
      (List.replicate 10 true, ⟨⟨1, 10, 0, now⟩, newExponentialBackOff⟩) := by
  have h1 := NewRateLimiter_first_allow now h
  have h9 := allowRun_steady newExponentialBackOff now 9 9 (by norm_num) (by norm_num)
  have hu : NewRateLimiter.allowRun now 10 =
      (true :: (RateLimiter.allowRun ⟨⟨1, 10, 9, now⟩, newExponentialBackOff⟩ now 9).1,
        (RateLimiter.allowRun ⟨⟨1, 10, 9, now⟩, newExponentialBackOff⟩ now 9).2) := by
    rw [show (10 : Nat) = 9 + 1 from rfl, allowRun_succ, h1]
  rw [hu, h9]
  refine congrArg₂ Prod.mk rfl ?_
  norm_num

/-- C3: `Reset` reinitializes only the backoff schedule state (it rebuilds
the backoff object from the fixed defaults) and leaves the token bucket
untouched; in particular, after the bucket is exhausted by ten `Allow`
calls, `Reset` followed by `Allow` at the same instant still denies. -/
theorem claim3_thm (r : RateLimiter) (now : ℚ) (h : 10 ≤ now) :
    r.Reset.limiter = r.limiter ∧
    r.Reset.backoff = newExponentialBackOff ∧
    ((NewRateLimiter.allowRun now 10).2.Reset.Allow now).1 = false := by
  refine ⟨rfl, rfl, ?_⟩
  rw [fresh_run10 now h]
  exact allow_empty_denied newExponentialBackOff now

/-- C3 witness at `now = 100`. -/
theorem claim3_wit :
    NewRateLimiter.Reset.limiter = NewRateLimiter.limiter ∧
    NewRateLimiter.Reset.backoff = newExponentialBackOff ∧
    ((NewRateLimiter.allowRun 100 10).2.Reset.Allow 100).1 = false :=
  claim3_thm NewRateLimiter 100 (by norm_num)

/-- C8: on a freshly constructed limiter, at any single instant at least 10
seconds past the Go zero time (true of every real wall-clock instant), any
`N ≤ 10` back-to-back `Allow` calls all return true, and an eleventh call
after ten successes returns false. -/
theorem claim8_thm (now : ℚ) (h : 10 ≤ now) (N : Nat) (hN : N ≤ 10) :
    (NewRateLimiter.allowRun now N).1 = List.replicate N true ∧
    (NewRateLimiter.allowRun now 11).1 = List.replicate 10 true ++ [false] := by
  have h1 := NewRateLimiter_first_allow now h
  constructor
  · match N, hN with
    | 0, _ => rfl
    | m + 1, hm =>
      have hm9 : ((m : ℚ)) ≤ 9 := by
        have : m ≤ 9 := by omega
        exact_mod_cast this
      have hs := allowRun_steady newExponentialBackOff now m 9 hm9 (by norm_num)
      have hu : NewRateLimiter.allowRun now (m + 1) =
          (true :: (RateLimiter.allowRun ⟨⟨1, 10, 9, now⟩, newExponentialBackOff⟩ now m).1,
            (RateLimiter.allowRun ⟨⟨1, 10, 9, now⟩, newExponentialBackOff⟩ now m).2) := by
        rw [allowRun_succ, h1]
      rw [hu, hs, List.replicate_succ]
  · have hex := allowRun_exhaust newExponentialBackOff now 9 (by norm_num)
    have hex' : (RateLimiter.allowRun ⟨⟨1, 10, 9, now⟩, newExponentialBackOff⟩ now 10).1 =
        List.replicate 9 true ++ [false] := by
      have hc : ((9 : Nat) : ℚ) = (9 : ℚ) := by norm_num
      rw [hc] at hex
      exact hex
    have hu : NewRateLimiter.allowRun now 11 =
        (true :: (RateLimiter.allowRun ⟨⟨1, 10, 9, now⟩, newExponentialBackOff⟩ now 10).1,
          (RateLimiter.allowRun ⟨⟨1, 10, 9, now⟩, newExponentialBackOff⟩ now 10).2) := by
      rw [show (11 : Nat) = 10 + 1 from rfl, allowRun_succ, h1]
    rw [hu, hex']
    rfl

/-- C8 witness at `now = 100`, `N = 10`. -/
theorem claim8_wit :
    (NewRateLimiter.allowRun 100 10).1 = List.replicate 10 true ∧
    (NewRateLimiter.allowRun 100 11).1 = List.replicate 10 true ++ [false] :=
  claim8_thm 100 (by norm_num) 10 (by norm_num)

/-- C5: whenever `Allow` denies, both adapter operations record the
rate-limit observation, fail with `RateLimitExceededError`, and make no
call to the calendar service. -/
theorem claim5_thm (a : GoogleCalendarAdapter) (now : ℚ) (calID : String) (ev : Option Event)
    (h : (a.limiter.Allow now).1 = false) :
    (a.ListCalendars now).out = .error RateLimitExceededError ∧
    (a.ListCalendars now).obs =
      [.apiRequest "list_calendars", .rateLimitHit, .apiError "list_calendars" "rate_limit"] ∧
    (a.ListCalendars now).svcCalls = 0 ∧
    (a.CreateEvent now calID ev).out = .error RateLimitExceededError ∧
    (a.CreateEvent now calID ev).obs =
      [.apiRequest "create_event", .rateLimitHit, .apiError "create_event" "rate_limit"] ∧
    (a.CreateEvent now calID ev).svcCalls = 0 := by
  rcases hP : a.limiter.Allow now with ⟨ok, r2⟩
  rw [hP] at h
  simp only at h
  subst h
  refine ⟨?_, ?_, ?_, ?_, ?_, ?_⟩ <;>
    simp [GoogleCalendarAdapter.ListCalendars, GoogleCalendarAdapter.CreateEvent, hP]

/-- C5 witness: an adapter over an exhausted limiter at instant 5. -/
theorem claim5_wit :
    (adapterExhausted.ListCalendars 5).out = .error RateLimitExceededError ∧
    (adapterExhausted.ListCalendars 5).obs =
      [.apiRequest "list_calendars", .rateLimitHit, .apiError "list_calendars" "rate_limit"] ∧
    (adapterExhausted.ListCalendars 5).svcCalls = 0 ∧
    (adapterExhausted.CreateEvent 5 "primary" (some evOK)).out = .error RateLimitExceededError ∧
    (adapterExhausted.CreateEvent 5 "primary" (some evOK)).obs =
      [.apiRequest "create_event", .rateLimitHit, .apiError "create_event" "rate_limit"] ∧
    (adapterExhausted.CreateEvent 5 "primary" (some evOK)).svcCalls = 0 :=
  claim5_thm adapterExhausted 5 "primary" (some evOK)
    (by norm_num [adapterExhausted, exhaustedRL, RateLimiter.Allow, Limiter.allow])

/-- The empty string does not parse as RFC3339. -/
theorem parseRFC3339_empty : parseRFC3339 "" = none := rfl

/-- A bad event (empty title, or end before start) fails `Validate`. -/
theorem Validate_isSome_of_bad (ev : Event)
    (hbad : ev.Title = "" ∨ endBeforeStart ev) :
    ∃ m, ev.Validate = some m := by
  by_cases hT : ev.Title = ""
  · exact ⟨"event title is required", by simp [Event.Validate, hT]⟩
  · rcases hbad with hbad | ⟨ts, te, hs, he, hlt⟩
    · exact absurd hbad hT
    · have hsne : ev.Start.DateTime ≠ "" := by
        intro hc
        rw [hc, parseRFC3339_empty] at hs
        exact Option.noConfusion hs
      have hene : ev.End.DateTime ≠ "" := by
        intro hc
        rw [hc, parseRFC3339_empty] at he
        exact Option.noConfusion he
      refine ⟨"event end time cannot be before start time", ?_⟩
      unfold Event.Validate Event.validateDateTime
      rw [if_neg hT, if_neg fun hc => hsne hc.1, if_neg fun hc => hene hc.1,
        if_pos ⟨hsne, hene⟩]
      simp only [hs, he]
      rw [if_pos hlt]

/-- Reduction of `CreateEvent` when the calendar ID is non-empty, the
access check succeeds, and event validation fails: the classified
validation error is returned after exactly the one access-check network
call. -/
theorem CreateEvent_invalid_reduction (g : googleCalendarService) (calID : String)
    (ev : Event) (m : String)
    (hcal : calID ≠ "") (hacc : g.raw.calendarsGet calID = .ok ())
    (hv : ev.Validate = some m) :
    g.CreateEvent calID (some ev) =
      (.error (.validation "event" "invalid event data" (some (.eventInvalid m))),
        [NetCall.calendarsGet calID]) := by
  simp [googleCalendarService.CreateEvent, googleCalendarService.validateCalendarAccess,
    hacc, hv, hcal]

/-- C1 (amended): for a bad event (empty title, or full timestamps with end
before start) and a non-empty calendar ID whose access check succeeds,
`CreateEvent` fails with the `ValidationError` "invalid event data" — but
only after the access-check network call, which is the one network call in
the trace; the event-insert call is never made. -/
theorem claim1_thm (g : googleCalendarService) (calID : String) (ev : Event)
    (hbad : ev.Title = "" ∨ endBeforeStart ev)
    (hcal : calID ≠ "")
    (hacc : g.raw.calendarsGet calID = .ok ()) :
    (∃ m, (g.CreateEvent calID (some ev)).1 =
      .error (.validation "event" "invalid event data" (some (.eventInvalid m)))) ∧
    (g.CreateEvent calID (some ev)).2 = [NetCall.calendarsGet calID] := by
  obtain ⟨m, hm⟩ := Validate_isSome_of_bad ev hbad
  rw [CreateEvent_invalid_reduction g calID ev m hcal hacc hm]
  exact ⟨⟨m, rfl⟩, rfl⟩

/-- C1 witness: the spec's end-before-start event against a service whose
access check succeeds. -/
theorem claim1_wit :
    (∃ m, (gcalAllOK.CreateEvent "primary" (some evEndBeforeStart)).1 =
      .error (.validation "event" "invalid event data" (some (.eventInvalid m)))) ∧
    (gcalAllOK.CreateEvent "primary" (some evEndBeforeStart)).2 =
      [NetCall.calendarsGet "primary"] :=
  claim1_thm gcalAllOK "primary" evEndBeforeStart
    (Or.inr ⟨1748743200000000000, 1748739600000000000, by decide, by decide, by decide⟩)
    (by decide) rfl

/-- C1 counterexample: an empty-title event with a valid calendar: the call
does fail with the `ValidationError`, but the network-call trace is not
empty — the calendar-access check was dispatched before the validation
failure, refuting "no network call is made before that failure is
returned". -/
theorem claim1_cex :
    (gcalAllOK.CreateEvent "primary" (some evEmptyTitle)).1 =
      .error (.validation "event" "invalid event data"
        (some (.eventInvalid "event title is required"))) ∧
    (gcalAllOK.CreateEvent "primary" (some evEmptyTitle)).2 =
      [NetCall.calendarsGet "primary"] ∧
    [NetCall.calendarsGet "primary"] ≠ ([] : List NetCall) := by
  refine ⟨?_, rfl, by decide⟩
  decide

/-- C2 (amended): classification of non-success upstream responses during
event creation.  A 404-style failure of the calendar-access check is
returned as a `ValidationError`; any other access-check failure and every
insert failure is returned as an `APIError` that carries the fixed status
code 500 — not the upstream status code — and wraps the upstream error (the
message holds the upstream text, except for 404-style insert failures,
which get the calendar-not-found message). -/
theorem claim2_thm (g : googleCalendarService) (calID : String) (ev : Event) (e : UpstreamErr)
    (hcal : calID ≠ "") :
    (g.raw.calendarsGet calID = .error e →
      (g.CreateEvent calID (some ev)).1 =
        (if (hasSub e.text "404" || hasSub e.text "notFound") = true then
          .error (.validation "calendar_id" (accessNotFoundMsg calID) (some (.up e)))
        else
          .error (.api "validate_calendar" ("failed to validate calendar access: " ++ e.text)
            500 (some (.up e))))) ∧
    (g.raw.calendarsGet calID = .ok () → ev.Validate = none →
      g.raw.eventsInsert calID (marshalEvent ev) = .error e →
      (g.CreateEvent calID (some ev)).1 =
        .error (.api "create_event"
          (if (hasSub e.text "404" || hasSub e.text "notFound") = true then notFoundMsg calID
           else insertFailMsg calID e) 500 (some (.up e)))) := by
  constructor
  · intro hacc
    by_cases h404 : (hasSub e.text "404" || hasSub e.text "notFound") = true
    · simp [googleCalendarService.CreateEvent, googleCalendarService.validateCalendarAccess,
        hacc, hcal, h404]
    · simp [googleCalendarService.CreateEvent, googleCalendarService.validateCalendarAccess,
        hacc, hcal, h404]
  · intro hacc hv hins
    by_cases h404 : (hasSub e.text "404" || hasSub e.text "notFound") = true
    · simp [googleCalendarService.CreateEvent, googleCalendarService.validateCalendarAccess,
        hacc, hcal, hv, hins, h404]
    · simp [googleCalendarService.CreateEvent, googleCalendarService.validateCalendarAccess,
        hacc, hcal, hv, hins, h404]

/-- C2 witness: a 404-style failure of the access check is classified as a
`ValidationError`, and an insert failure is classified as an `APIError`
with code 500 wrapping the upstream error. -/
theorem claim2_wit :
    (gcalGet404.CreateEvent "primary" (some evOK)).1 =
      (if (hasSub err404.text "404" || hasSub err404.text "notFound") = true then
        .error (.validation "calendar_id" (accessNotFoundMsg "primary") (some (.up err404)))
      else
        .error (.api "validate_calendar" ("failed to validate calendar access: " ++ err404.text)
          500 (some (.up err404)))) ∧
    (gcalInsert403.CreateEvent "primary" (some evOK)).1 =
      .error (.api "create_event"
        (if (hasSub err403.text "404" || hasSub err403.text "notFound") = true then
          notFoundMsg "primary"
         else insertFailMsg "primary" err403) 500 (some (.up err403))) :=
  ⟨(claim2_thm gcalGet404 "primary" evOK err404 (by decide)).1 rfl,
   (claim2_thm gcalInsert403 "primary" evOK err403 (by decide)).2 rfl (by decide) rfl⟩

/-- C2 counterexample: an insert failure whose upstream status is 403 is
returned as an `APIError` whose code field is the constant 500, not the
upstream 403 — refuting "carrying the upstream status code". -/
theorem claim2_cex :
    (gcalInsert403.CreateEvent "primary" (some evOK)).1 =
      .error (.api "create_event" (insertFailMsg "primary" err403) 500 (some (.up err403))) ∧
    err403.code = 403 ∧ (500 : Nat) ≠ 403 := by
  refine ⟨?_, rfl, by decide⟩
  decide

/-- C6: decryption of an encryption with the same passphrase recovers the
plaintext exactly, for any plaintext and any salt/nonce of the lengths the
source draws (16-byte salt, 12-byte GCM nonce). -/
theorem claim6_thm (pass salt nonce plaintext : List Nat)
    (hsalt : salt.length = 16) (hnonce : nonce.length = gcmNonceSize) :
    Decrypt pass (Encrypt pass salt nonce plaintext) = .ok plaintext := by
  have hkey : pbkdf2Key pass salt = pbkdf2Key pass salt := rfl
  set key := pbkdf2Key pass salt with hk
  have hblob : Encrypt pass salt nonce plaintext =
      salt ++ (nonce ++ gcmSeal key nonce plaintext) := rfl
  have hlen : (Encrypt pass salt nonce plaintext).length =
      16 + (12 + (plaintext.length + 16)) := by
    rw [hblob]
    simp [gcmSeal, gcmTag_length, hsalt, hnonce, gcmNonceSize]
  have h16 : ¬ (Encrypt pass salt nonce plaintext).length < 16 := by omega
  have hle16 : 16 ≤ (Encrypt pass salt nonce plaintext).length := by omega
  have htake : (Encrypt pass salt nonce plaintext).take 16 = salt := by
    rw [hblob]
    exact List.take_left' hsalt
  have hdrop : (Encrypt pass salt nonce plaintext).drop 16 =
      nonce ++ gcmSeal key nonce plaintext := by
    rw [hblob]
    exact List.drop_left' hsalt
  have hct : (nonce ++ gcmSeal key nonce plaintext).length = 12 + (plaintext.length + 16) := by
    simp [gcmSeal, gcmTag_length, hnonce, gcmNonceSize]
  have h12 : ¬ (nonce ++ gcmSeal key nonce plaintext).length < gcmNonceSize := by
    rw [hct]; simp [gcmNonceSize]
  have hle12 : gcmNonceSize ≤ (nonce ++ gcmSeal key nonce plaintext).length := by
    rw [hct]; simp [gcmNonceSize]
  have htake2 : (nonce ++ gcmSeal key nonce plaintext).take gcmNonceSize = nonce :=
    List.take_left' hnonce
  have hdrop2 : (nonce ++ gcmSeal key nonce plaintext).drop gcmNonceSize =
      gcmSeal key nonce plaintext :=
    List.drop_left' hnonce
  unfold Decrypt
  rw [if_neg h16]
  simp only [goSliceTo, goSliceFrom, if_pos hle16, htake, hdrop, ← hk]
  rw [if_neg h12]
  simp only [if_pos hle12, htake2, hdrop2]
  rw [gcmOpen_gcmSeal]

/-- C6 witness on concrete bytes. -/
theorem claim6_wit :
    Decrypt [1, 2] (Encrypt [1, 2] (List.replicate 16 0) (List.replicate 12 1) [7, 8, 9]) =
      .ok [7, 8, 9] :=
  claim6_thm [1, 2] (List.replicate 16 0) (List.replicate 12 1) [7, 8, 9]
    (by decide) (by decide)

/-- C7: `Decrypt` never reaches an out-of-bounds slice (never panics), and
on every blob shorter than the 28-byte salt-plus-nonce minimum it returns
one of the two length-related errors. -/
theorem claim7_thm (pass blob : List Nat) :
    Decrypt pass blob ≠ .panicked ∧
    (blob.length < 28 →
      Decrypt pass blob = .err "encrypted data too short" ∨
      Decrypt pass blob = .err "ciphertext too short") := by
  unfold Decrypt
  by_cases h16 : blob.length < 16
  · rw [if_pos h16]
    exact ⟨by simp, fun _ => Or.inl rfl⟩
  · rw [if_neg h16]
    have hle : 16 ≤ blob.length := not_lt.mp h16
    simp only [goSliceTo, goSliceFrom, if_pos hle]
    by_cases h12 : (blob.drop 16).length < gcmNonceSize
    · rw [if_pos h12]
      exact ⟨by simp, fun _ => Or.inr rfl⟩
    · rw [if_neg h12]
      have hle12 : gcmNonceSize ≤ (blob.drop 16).length := not_lt.mp h12
      simp only [if_pos hle12]
      constructor
      · cases hopen : gcmOpen (pbkdf2Key pass (blob.take 16)) ((blob.drop 16).take gcmNonceSize)
            ((blob.drop 16).drop gcmNonceSize) with
        | none => simp [hopen]
        | some pt => simp [hopen]
      · intro hlt
        exfalso
        have : (blob.drop 16).length = blob.length - 16 := List.length_drop 16 blob
        simp [gcmNonceSize] at h12 hle12
        omega

/-- C7 witness: a 20-byte blob (too short for salt plus nonce) produces the
ciphertext-too-short error and no panic. -/
theorem claim7_wit :
    Decrypt [0] (List.replicate 20 0) ≠ .panicked ∧
    (Decrypt [0] (List.replicate 20 0) = .err "encrypted data too short" ∨
     Decrypt [0] (List.replicate 20 0) = .err "ciphertext too short") :=
  ⟨(claim7_thm [0] (List.replicate 20 0)).1,
   (claim7_thm [0] (List.replicate 20 0)).2 (by decide)⟩

/-- Reduction of `CreateEvent` on the success path. -/
theorem CreateEvent_success_reduction (g : googleCalendarService) (calID : String)
    (ev : Event) (created : GEventResp)
    (hcal : calID ≠ "") (hacc : g.raw.calendarsGet calID = .ok ())
    (hv : ev.Validate = none)
    (hins : g.raw.eventsInsert calID (marshalEvent ev) = .ok created) :
    g.CreateEvent calID (some ev) =
      (.ok (mapCreated created),
        [NetCall.calendarsGet calID, NetCall.eventsInsert calID (marshalEvent ev)]) := by
  simp [googleCalendarService.CreateEvent, googleCalendarService.validateCalendarAccess,
    hacc, hcal, hv, hins]

/-- C9 (amended): on a successful creation, the domain event's location is
the pointer `&created.Location` — the address of the wire response object's
own `Location` field, holding that field's value.  It therefore differs
from the request's location pointer exactly when their addresses differ; it
is not a freshly allocated copy distinct from the wire response's field. -/
theorem claim9_thm (g : googleCalendarService) (calID : String) (ev : Event)
    (created : GEventResp)
    (hcal : calID ≠ "") (hacc : g.raw.calendarsGet calID = .ok ())
    (hv : ev.Validate = none)
    (hins : g.raw.eventsInsert calID (marshalEvent ev) = .ok created) :
    (g.CreateEvent calID (some ev)).1 = .ok (mapCreated created) ∧
    (mapCreated created).Location = some ⟨created.LocationAddr, created.Location⟩ ∧
    (∀ p : StrPtr, ev.Location = some p → p.addr ≠ created.LocationAddr →
      (mapCreated created).Location ≠ some p) := by
  refine ⟨?_, rfl, ?_⟩
  · rw [CreateEvent_success_reduction g calID ev created hcal hacc hv hins]
  · intro p _ haddr hc
    simp only [mapCreated, Option.some.injEq] at hc
    exact haddr (congrArg StrPtr.addr hc.symm)

/-- C9 witness: concrete request (location pointer at address 7) and wire
response (`Location` field at address 42): the returned pointer is address
42 — the wire field — and is distinct from the request's pointer. -/
theorem claim9_wit :
    (gcalAllOK.CreateEvent "primary" (some evOK)).1 = .ok (mapCreated created0) ∧
    (mapCreated created0).Location = some ⟨created0.LocationAddr, created0.Location⟩ ∧
    (mapCreated created0).Location ≠ some (⟨7, "HQ"⟩ : StrPtr) :=
  have h := claim9_thm gcalAllOK "primary" evOK created0 (by decide) rfl (by decide) rfl
  ⟨h.1, h.2.1, h.2.2 ⟨7, "HQ"⟩ rfl (by decide)⟩

/-- C9 counterexample: in the same concrete run, the location stored in the
returned domain event is the address of the wire response object's
`Location` field (address 42) — not a fresh copy at a distinct memory
location from that field — refuting the claimed no-aliasing with the wire
response. -/
theorem claim9_cex :
    (gcalAllOK.CreateEvent "primary" (some evOK)).1 = .ok (mapCreated created0) ∧
    (mapCreated created0).Location = some ⟨42, "Room 1"⟩ ∧
    created0.LocationAddr = 42 := by
  refine ⟨?_, rfl, rfl⟩
  decide
